import Mathlib

/-!
Verification development for the SN-Theme StyleKit theme installer
(`sn_stylekit_theme_installer.py`).

The Python program is shallowly embedded here:
* Python `dict[str, str]` values become association lists
  `List (String × String)`; `dict.update` / `d[k] = v` become `dupdate` /
  `dinsert`, which replace the value of an existing key in place and append
  new keys at the end, exactly like CPython's insertion-ordered dicts.
* The two regular expressions of the program (`#[0-9a-fA-F]{6}` used with
  `findall`, and `font-family:\s*([^;]+);` used with a case-insensitive
  `search`) are embedded as explicit left-to-right scanners over `List Char`
  with the same match semantics.
* `main`'s pure input/output behaviour (lines 388-473) is embedded as
  `mainModel` over an explicit environment `Env` describing the command-line
  arguments and the relevant file-system facts; writing `theme.css` /
  `ext.json` becomes the `cssWrite` / `extWrite` fields of the result.
  The optional HTTP server and the actual file-system side effects are not
  part of any claim and are not modelled.

String operations are implemented over `.data` (lists of characters) so that
every definition reduces inside the kernel.  `Char.toLower` agrees with
Python's `str.lower` on the ASCII data handled by this program.
-/

/-- The set of characters stripped by Python's `str.strip()` (ASCII range). -/
def pyWhite (c : Char) : Bool :=
  c = ' ' || c = '\t' || c = '\n' || c = '\x0d' || c = '\x0b' || c = '\x0c'

/-- Lower-case a character list; matches Python `str.lower` on ASCII text. -/
def lowerData (l : List Char) : List Char :=
  l.map Char.toLower

/-- Lower-case view of a string, as a character list. -/
def lowerStr (s : String) : List Char :=
  lowerData s.data

/-- Python `str.strip()` on a character list. -/
def pyStrip (l : List Char) : List Char :=
  ((l.dropWhile pyWhite).reverse.dropWhile pyWhite).reverse

/-- Python `str.strip()` on a string. -/
def pyStripS (s : String) : String :=
  ⟨pyStrip s.data⟩

/-- Python `str.rstrip()` on a string. -/
def pyRstripS (s : String) : String :=
  ⟨(s.data.reverse.dropWhile pyWhite).reverse⟩

/-- Python `"\n".join(lines)`. -/
def joinNL : List String → String
  | [] => ""
  | [s] => s
  | s :: rest => s ++ "\n" ++ joinNL rest

/-- Left-biased choice on options (first defined value wins). -/
def oor : Option String → Option String → Option String
  | some v, _ => some v
  | none, b => b

/-- Whether an `Except` value is an error. -/
def isErrE {α : Type} : Except String α → Bool
  | .error _ => true
  | .ok _ => false

/-! ### Python dictionaries as association lists -/

/-- Dictionary lookup: value of the first (hence, for a dict, only) pair
with the given key. -/
def dget : List (String × String) → String → Option String
  | [], _ => none
  | p :: t, k => if p.1 = k then some p.2 else dget t k

/-- Python `d[k] = v`: replace the value of an existing key in place,
otherwise append the new pair at the end. -/
def dinsert : List (String × String) → String → String → List (String × String)
  | [], k, v => [(k, v)]
  | p :: t, k, v => if p.1 = k then (k, v) :: t else p :: dinsert t k v

/-- Python `d.update(n)`: insert every pair of `n` into `d`, in order. -/
def dupdate (m n : List (String × String)) : List (String × String) :=
  n.foldl (fun acc p => dinsert acc p.1 p.2) m

/-- Value that the last pair of `n` with key `k` assigns (the value a
dict built from `n` would hold), if any. -/
def dLast (n : List (String × String)) (k : String) : Option String :=
  n.foldl (fun acc p => if p.1 = k then some p.2 else acc) none

/-- The keys of an association list are pairwise distinct. -/
def nodupKeys (m : List (String × String)) : Prop :=
  (m.map Prod.fst).Nodup

instance (m : List (String × String)) : Decidable (nodupKeys m) := by
  unfold nodupKeys; infer_instance

/-! ### Palette extraction (`extract_font_family_from_index`,
`extract_hex_colors_from_index`, `palette_from_index`) -/

/-- Hexadecimal digit test, as in the character class `[0-9a-fA-F]`. -/
def isHex6Digit (c : Char) : Bool :=
  ('0' ≤ c && c ≤ '9') || ('a' ≤ c && c ≤ 'f') || ('A' ≤ c && c ≤ 'F')

/-- `re.findall(r"#[0-9a-fA-F]{6}", ·)`: the non-overlapping matches of
`#` followed by exactly six hex digits, scanning left to right; after a
match the scan resumes past the matched digits, after a failed candidate it
resumes at the next character. -/
def hexMatches : List Char → List String
  | '#' :: c1 :: c2 :: c3 :: c4 :: c5 :: c6 :: rest =>
    if [c1, c2, c3, c4, c5, c6].all isHex6Digit then
      String.mk ['#', c1, c2, c3, c4, c5, c6] :: hexMatches rest
    else
      hexMatches (c1 :: c2 :: c3 :: c4 :: c5 :: c6 :: rest)
  | _ :: rest => hexMatches rest
  | [] => []

/-- Key ordering used by `sorted(..., key=lambda s: s.lower())` and
`sorted(..., key=str.lower)`: compare the lower-cased strings. -/
def lowerLe (a b : String) : Prop :=
  lowerStr a ≤ lowerStr b

instance : DecidableRel lowerLe := fun a b =>
  inferInstanceAs (Decidable (lowerStr a ≤ lowerStr b))

instance : IsTotal String lowerLe :=
  ⟨fun a b => le_total (lowerStr a) (lowerStr b)⟩

instance : IsTrans String lowerLe :=
  ⟨fun _ _ _ hab hbc => le_trans hab hbc⟩

/-- `extract_hex_colors_from_index`: the distinct `#RRGGBB` matches, sorted
case-insensitively.  Python's `set` leaves the relative order of two
distinct strings with equal lower-casings unspecified; this embedding
keeps the last occurrence and sorts stably, which fixes one of the orders
the program may produce. -/
def extract_hex_colors_from_index (html : String) : List String :=
  List.insertionSort lowerLe (hexMatches html.data).dedup

/-- The literal `font-family:` (12 characters, already lower case). -/
def ffKey : List Char :=
  "font-family:".data

/-- Characters up to (excluding) the first `';'`, or `none` when no `';'`
occurs: the only way `[^;]+;` can match at a given start position. -/
def takeUntilSemi : List Char → Option (List Char)
  | [] => none
  | c :: t => if c = ';' then some [] else (takeUntilSemi t).map (c :: ·)

/-- `re.search(r"font-family:\s*([^;]+);", ·, re.IGNORECASE)`, reduced to the
text between the colon and the next `';'`: at the leftmost case-insensitive
occurrence of `font-family:` that is followed by at least one character
before a `';'`, return that segment (the match group is this segment minus
some of its leading whitespace, so after `str.strip()` both agree). -/
def ffSearch : List Char → Option (List Char)
  | [] => none
  | c :: rest =>
    if ((( c :: rest).take 12).map Char.toLower) = ffKey then
      match takeUntilSemi ((c :: rest).drop 12) with
      | some seg => if seg.isEmpty then ffSearch rest else some seg
      | none => ffSearch rest
    else
      ffSearch rest

/-- The fallback font stack returned when the pattern does not occur. -/
def fallbackFont : String :=
  "-apple-system, BlinkMacSystemFont, \x27Segoe UI\x27, \x27Roboto\x27, \x27Oxygen\x27, \x27Ubuntu\x27, \x27Cantarell\x27, \x27Fira Sans\x27, \x27Droid Sans\x27, \x27Helvetica Neue\x27, sans-serif"

/-- `extract_font_family_from_index`: first `font-family: <value>;` match,
trimmed; fallback stack when absent. -/
def extract_font_family_from_index (html : String) : String :=
  match ffSearch html.data with
  | some seg => ⟨pyStrip seg⟩
  | none => fallbackFont

/-- The palette dictionary built by `palette_from_index` (a fixed-key dict,
embedded as a record with one field per key). -/
structure Palette where
  font_family : String
  background : String
  editor_background : String
  panel_background : String
  selection_background : String
  status_background : String
  header_background : String
  dim_border : String
  border : String
  success : String
  info : String
  comment : String
  accent : String
  link : String
  muted : String
  danger : String
  foreground : String
  light_foreground : String
  warning : String
deriving DecidableEq

/-- The inner `pick(wanted, default)` of `palette_from_index`: the preferred
color when its lower-casing is among the discovered colors, else the
default. -/
def pick (colors : List (List Char)) (wanted default : String) : String :=
  if lowerStr wanted ∈ colors then wanted else default

/-- `palette_from_index`, with the file already read: maps each palette slot
via `pick`, and the font via `extract_font_family_from_index`. -/
def palette_from_index (html : String) : Palette :=
  let colors := (extract_hex_colors_from_index html).map lowerStr
  { font_family := extract_font_family_from_index html
    background := pick colors "#0f1011" "#0f1011"
    editor_background := pick colors "#0f1011" "#0f1011"
    panel_background := pick colors "#1c1d1e" "#1c1d1e"
    selection_background := pick colors "#28292b" "#28292b"
    status_background := pick colors "#1c1d1e" "#1c1d1e"
    header_background := pick colors "#1c1d1e" "#1c1d1e"
    dim_border := pick colors "#28292b" "#28292b"
    border := pick colors "#181a1b" "#181a1b"
    success := pick colors "#2b9612" "#2b9612"
    info := pick colors "#a464c2" "#a464c2"
    comment := pick colors "#7c7c7c" "#7c7c7c"
    accent := pick colors "#a464c2" "#a464c2"
    link := pick colors "#a464c2" "#a464c2"
    muted := pick colors "#999999" "#999999"
    danger := pick colors "#f80324" "#f80324"
    foreground := pick colors "#eeeeee" "#eeeeee"
    light_foreground := pick colors "#ffffff" "#ffffff"
    warning := pick colors "#cc8800" "#cc8800" }

/-- The color slots of the palette (every key except `font_family`). -/
inductive ColorSlot where
  | background | editor_background | panel_background | selection_background
  | status_background | header_background | dim_border | border
  | success | info | comment | accent | link | muted | danger
  | foreground | light_foreground | warning
deriving DecidableEq

/-- Value of a color slot in a palette. -/
def slotValue (p : Palette) : ColorSlot → String
  | .background => p.background
  | .editor_background => p.editor_background
  | .panel_background => p.panel_background
  | .selection_background => p.selection_background
  | .status_background => p.status_background
  | .header_background => p.header_background
  | .dim_border => p.dim_border
  | .border => p.border
  | .success => p.success
  | .info => p.info
  | .comment => p.comment
  | .accent => p.accent
  | .link => p.link
  | .muted => p.muted
  | .danger => p.danger
  | .foreground => p.foreground
  | .light_foreground => p.light_foreground
  | .warning => p.warning

/-- The slot-specific preferred color (first argument of `pick` in the
source). -/
def slotPref : ColorSlot → String
  | .background => "#0f1011"
  | .editor_background => "#0f1011"
  | .panel_background => "#1c1d1e"
  | .selection_background => "#28292b"
  | .status_background => "#1c1d1e"
  | .header_background => "#1c1d1e"
  | .dim_border => "#28292b"
  | .border => "#181a1b"
  | .success => "#2b9612"
  | .info => "#a464c2"
  | .comment => "#7c7c7c"
  | .accent => "#a464c2"
  | .link => "#a464c2"
  | .muted => "#999999"
  | .danger => "#f80324"
  | .foreground => "#eeeeee"
  | .light_foreground => "#ffffff"
  | .warning => "#cc8800"

/-- The slot-specific default color (second argument of `pick` in the
source). -/
def slotDefault : ColorSlot → String
  | .background => "#0f1011"
  | .editor_background => "#0f1011"
  | .panel_background => "#1c1d1e"
  | .selection_background => "#28292b"
  | .status_background => "#1c1d1e"
  | .header_background => "#1c1d1e"
  | .dim_border => "#28292b"
  | .border => "#181a1b"
  | .success => "#2b9612"
  | .info => "#a464c2"
  | .comment => "#7c7c7c"
  | .accent => "#a464c2"
  | .link => "#a464c2"
  | .muted => "#999999"
  | .danger => "#f80324"
  | .foreground => "#eeeeee"
  | .light_foreground => "#ffffff"
  | .warning => "#cc8800"

/-! ### Variable mapper (`stylekit_vars_from_palette`,
`optional_overrides_from_palette`) -/

/-- `stylekit_vars_from_palette`: the fixed StyleKit variable dictionary,
in the source's insertion order. -/
def stylekit_vars_from_palette (p : Palette) : List (String × String) :=
  [ ("--background-color", p.background),
    ("--foreground-color", p.foreground),
    ("--highlight-color", p.accent),
    ("--border-color", p.background),
    ("--sn-component-background-color", "transparent"),
    ("--sn-component-foreground-color", "var(--foreground-color)"),
    ("--sn-component-foreground-highlight-color", "var(--highlight-color)"),
    ("--sn-component-inner-border-color", "var(--foreground-color)"),
    ("--sn-component-outer-border-color", "transparent"),
    ("--sn-stylekit-monospace-font", "\x27SFMono-Regular\x27, Consolas, \x27Liberation Mono\x27, Menlo, \x27Ubuntu Mono\x27, \x27Courier New\x27, monospace"),
    ("--sn-stylekit-sans-serif-font", p.font_family),
    ("--sn-stylekit-background-color", "var(--background-color)"),
    ("--sn-stylekit-foreground-color", "var(--foreground-color)"),
    ("--sn-stylekit-border-color", p.border),
    ("--sn-stylekit-contrast-background-color", "#000000"),
    ("--sn-stylekit-contrast-foreground-color", p.light_foreground),
    ("--sn-stylekit-contrast-border-color", "#000000"),
    ("--sn-stylekit-secondary-background-color", "var(--sn-stylekit-passive-color-4)"),
    ("--sn-stylekit-secondary-foreground-color", p.light_foreground),
    ("--sn-stylekit-secondary-border-color", "#000000"),
    ("--sn-stylekit-secondary-contrast-background-color", "#000000"),
    ("--sn-stylekit-secondary-contrast-foreground-color", p.light_foreground),
    ("--sn-stylekit-secondary-contrast-border-color", p.light_foreground),
    ("--sn-stylekit-editor-background-color", "var(--sn-stylekit-background-color)"),
    ("--sn-stylekit-editor-foreground-color", "var(--sn-stylekit-foreground-color)"),
    ("--sn-stylekit-neutral-color", p.comment),
    ("--sn-stylekit-neutral-contrast-color", p.light_foreground),
    ("--sn-stylekit-info-color", "var(--highlight-color)"),
    ("--sn-stylekit-info-contrast-color", "var(--foreground-color)"),
    ("--sn-stylekit-success-color", p.success),
    ("--sn-stylekit-success-contrast-color", p.light_foreground),
    ("--sn-stylekit-warning-color", p.warning),
    ("--sn-stylekit-warning-contrast-color", p.light_foreground),
    ("--sn-stylekit-danger-color", p.danger),
    ("--sn-stylekit-danger-contrast-color", p.light_foreground),
    ("--sn-stylekit-shadow-color", "#000000"),
    ("--sn-stylekit-paragraph-text-color", p.light_foreground),
    ("--sn-stylekit-input-placeholder-color", p.comment),
    ("--sn-stylekit-input-border-color", p.border),
    ("--sn-stylekit-scrollbar-thumb-color", "var(--sn-stylekit-info-color)"),
    ("--sn-stylekit-scrollbar-track-border-color", "var(--border-color)"),
    ("--sn-stylekit-general-border-radius", "2px"),
    ("--sn-stylekit-menu-border", "1px solid #424242"),
    ("--sn-stylekit-passive-color-0", p.muted),
    ("--sn-stylekit-passive-color-3", p.selection_background),
    ("--sn-stylekit-passive-color-4", p.panel_background),
    ("--sn-stylekit-passive-color-5", p.header_background),
    ("--sn-desktop-titlebar-bg-color", "var(--background-color)"),
    ("--sn-desktop-titlebar-border-color", "var(--border-color)"),
    ("--sn-desktop-titlebar-ui-color", "var(--foreground-color)"),
    ("--sn-desktop-titlebar-ui-hover-color", "var(--highlight-color)"),
    ("--sn-stylekit-accessory-tint-color-1", p.info),
    ("--sn-stylekit-accessory-tint-color-2", p.danger),
    ("--sn-stylekit-accessory-tint-color-3", p.warning),
    ("--sn-stylekit-accessory-tint-color-4", p.accent),
    ("--sn-stylekit-accessory-tint-color-5", p.success),
    ("--sn-stylekit-accessory-tint-color-6", p.link) ]

/-- `optional_overrides_from_palette`: the optional override variables,
in the source's insertion order. -/
def optional_overrides_from_palette (p : Palette) : List (String × String) :=
  [ ("--modal-background-color", "var(--sn-stylekit-background-color)"),
    ("--editor-header-bar-background-color", p.panel_background),
    ("--editor-background-color", "var(--sn-stylekit-editor-background-color)"),
    ("--editor-foreground-color", "var(--sn-stylekit-editor-foreground-color)"),
    ("--editor-title-bar-border-bottom-color", "var(--sn-stylekit-border-color)"),
    ("--editor-title-input-color", "var(--sn-stylekit-editor-foreground-color)"),
    ("--editor-pane-background-color", "var(--sn-stylekit-background-color)"),
    ("--editor-pane-editor-background-color", "var(--sn-stylekit-editor-background-color)"),
    ("--editor-pane-editor-foreground-color", "var(--sn-stylekit-editor-foreground-color)"),
    ("--editor-pane-component-stack-item-background-color", "var(--sn-stylekit-background-color)"),
    ("--text-selection-color", "var(--sn-stylekit-info-contrast-color)"),
    ("--text-selection-background-color", "var(--sn-stylekit-info-color)"),
    ("--items-column-background-color", "var(--sn-stylekit-background-color)"),
    ("--items-column-items-background-color", "var(--sn-stylekit-background-color)"),
    ("--items-column-border-left-color", "var(--sn-stylekit-border-color)"),
    ("--items-column-border-right-color", "var(--sn-stylekit-border-color)"),
    ("--items-column-search-background-color", "var(--sn-stylekit-contrast-background-color)"),
    ("--item-cell-selected-background-color", "var(--sn-stylekit-contrast-background-color)"),
    ("--item-cell-selected-border-left-color", "var(--sn-stylekit-info-color)"),
    ("--navigation-column-background-color", "var(--sn-stylekit-secondary-background-color)"),
    ("--navigation-section-title-color", "var(--sn-stylekit-secondary-foreground-color)"),
    ("--navigation-item-text-color", "var(--sn-stylekit-secondary-foreground-color)"),
    ("--navigation-item-count-color", "var(--sn-stylekit-neutral-color)"),
    ("--navigation-item-selected-background-color", "var(--background-color)"),
    ("--normal-button-background-color", p.header_background),
    ("--panel-resizer-background-color", "var(--sn-stylekit-secondary-contrast-background-color)"),
    ("--popover-border-color", p.selection_background),
    ("--separator-color", p.selection_background),
    ("--link-element-color", p.link) ]

/-! ### Artifact builder (`build_theme_css`, `build_ext_json`) -/

/-- Sort ordering of `build_theme_css`: keys compared case-insensitively
(`sorted(vars_map.keys(), key=str.lower)`), lifted to the dict's pairs. -/
def cssLe (p q : String × String) : Prop :=
  lowerLe p.1 q.1

instance : DecidableRel cssLe := fun p q =>
  inferInstanceAs (Decidable (lowerLe p.1 q.1))

instance : IsTotal (String × String) cssLe :=
  ⟨fun p q => IsTotal.total (r := lowerLe) p.1 q.1⟩

instance : IsTrans (String × String) cssLe :=
  ⟨fun _ _ _ hab hbc => Trans.trans (r := lowerLe) (s := lowerLe) hab hbc⟩

/-- The dict's pairs in emission order: sorted by key, case-insensitively.
Python's stable sort on the insertion-ordered keys is matched by a stable
insertion sort on the pair list. -/
def cssSorted (vars_map : List (String × String)) : List (String × String) :=
  List.insertionSort cssLe vars_map

/-- One emitted declaration line, value verbatim: `  key: value;`. -/
def cssDecl (p : String × String) : String :=
  "  " ++ p.1 ++ ": " ++ p.2 ++ ";"

/-- `build_theme_css`: the `:root` block with one sorted declaration per
entry, followed by the optional extra CSS. -/
def build_theme_css (vars_map : List (String × String)) (extra_css : String) : String :=
  let lines := (":root \x7b" :: (cssSorted vars_map).map cssDecl) ++ ["\x7d"]
  let lines :=
    if pyStripS extra_css ≠ "" then lines ++ ["", pyRstripS extra_css ++ "\n"] else lines
  joinNL lines ++ "\n"

/-- JSON-ish values appearing in the `ext.json` dictionary. -/
inductive JVal where
  | str (s : String)
  | bool (b : Bool)
  | obj (fields : List (String × String))
deriving DecidableEq

/-- Lookup in the manifest dictionary. -/
def jget : List (String × JVal) → String → Option JVal
  | [], _ => none
  | p :: t, k => if p.1 = k then some p.2 else jget t k

/-- Python `s.rstrip("/")`: drop every trailing `'/'`. -/
def rstripSlash (s : String) : String :=
  ⟨(s.data.reverse.dropWhile (· = '/')).reverse⟩

/-- The `ThemeMeta` record of the source (the `dock_icon` dict is kept as
an association list; `None` becomes `none`). -/
structure ThemeMeta where
  identifier : String
  name : String
  version : String
  host : String
  port : Nat
  description : String := ""
  is_dark : Bool := true
  cdn_base : String := ""
  marketing_url : String := ""
  dock_icon : Option (List (String × String)) := none
  css_filename : String := "theme.css"
  ext_filename : String := "ext.json"

/-- `build_ext_json`: the manifest dictionary in its construction order.
Python's `if ext_url:` / `if meta.marketing_url:` test string truthiness
(non-emptiness); `ext_url`, when set, always contains a `'/'` and is
never empty, so `Option` faithfully captures it.  `if meta.dock_icon:`
tests dict truthiness, which is false both for `None` (here `none`) and
for the empty dict (here `some []`), so the icon entry is emitted only
for `some d` with `d` non-empty. -/
def build_ext_json (meta : ThemeMeta) : List (String × JVal) :=
  let css_url :=
    if meta.cdn_base ≠ "" then rstripSlash meta.cdn_base ++ "/" ++ meta.css_filename
    else "http://" ++ meta.host ++ ":" ++ Nat.repr meta.port ++ "/" ++ meta.css_filename
  let ext_url : Option String :=
    if meta.cdn_base ≠ "" then some (rstripSlash meta.cdn_base ++ "/" ++ meta.ext_filename)
    else none
  [ ("identifier", JVal.str meta.identifier),
    ("name", JVal.str meta.name),
    ("content_type", JVal.str "SN|Theme"),
    ("area", JVal.str "themes"),
    ("version", JVal.str meta.version),
    ("description", JVal.str meta.description),
    ("url", JVal.str css_url),
    ("isDark", JVal.bool meta.is_dark) ]
  ++ (match ext_url with
      | some u => [("latest_url", JVal.str u)]
      | none => [])
  ++ (if meta.marketing_url ≠ "" then [("marketing_url", JVal.str meta.marketing_url)] else [])
  ++ (match meta.dock_icon with
      | some d => if d ≠ [] then [("dock_icon", JVal.obj d)] else []
      | none => [])

/-! ### Override parsing (`parse_set_overrides`) -/

/-- One iteration of the loop in `parse_set_overrides`: split the item at
the first `'='`, strip key and value, reject a missing `'='` or an empty
stripped key. -/
def psoStep (out : List (String × String)) (item : String) : Except String (List (String × String)) :=
  if '=' ∉ item.data then
    .error ("--set expects KEY=VALUE, got: " ++ item)
  else
    let k := pyStrip (item.data.takeWhile (· ≠ '='))
    let v := pyStrip ((item.data.dropWhile (· ≠ '=')).drop 1)
    if k = [] then .error ("Empty KEY in --set: " ++ item)
    else .ok (dinsert out ⟨k⟩ ⟨v⟩)

/-- The loop of `parse_set_overrides` over the remaining items. -/
def psoGo (out : List (String × String)) : List String → Except String (List (String × String))
  | [] => .ok out
  | item :: rest =>
    match psoStep out item with
    | .error e => .error e
    | .ok out2 => psoGo out2 rest

/-- `parse_set_overrides`: parse repeated `--set KEY=VALUE` items into a
dictionary, failing on the first malformed item. -/
def parse_set_overrides (items : List String) : Except String (List (String × String)) :=
  psoGo [] items

/-- An item on which `parse_set_overrides` raises: no `'='`, or the key
part is empty after stripping. -/
def badItem (item : String) : Prop :=
  '=' ∉ item.data ∨ pyStrip (item.data.takeWhile (· ≠ '=')) = []

instance (item : String) : Decidable (badItem item) := by
  unfold badItem; infer_instance

/-! ### The generation phase of `main` (lines 388-473) -/

/-- The inputs `main` depends on: parsed command-line arguments plus the
file-system facts it consults.  An empty `varsPath` / `fromIndex` means the
flag was not given (Python tests string truthiness).  `varsContent` is the
parsed JSON object of the vars file (JSON parsing itself is not modelled:
an unreadable JSON file raises an uncaught exception, outside every claim);
`indexText` is the text of the index file. -/
structure Env where
  varsPath : String := ""
  varsExists : Bool := false
  varsContent : List (String × String) := []
  fromIndex : String := ""
  indexExists : Bool := false
  indexText : String := ""
  setItems : List String := []
  noOptional : Bool := false
  name : String := "Emacs Org Mode"
  identifier : String := "lt.sarunas.emacs-org-mode-theme"
  version : String := "1.0.0"
  host : String := "localhost"
  port : Nat := 8001
  description : String := "A dark theme based on the Standard Notes Focus dark palette"
  light : Bool := false
  cdn : String := ""
  marketingUrl : String := ""

/-- Lines 391-426 of `main`: build `vars_map` by layering the JSON vars
file, then the palette-derived StyleKit variables (plus, unless suppressed,
the optional overrides), then the `--set` overrides; errors are the
diagnostics printed before `return 2`. -/
def mergedVarsE (env : Env) : Except String (List (String × String)) :=
  if env.varsPath ≠ "" ∧ env.varsExists = false then
    .error ("[error] vars file not found: " ++ env.varsPath)
  else
    let vm1 := if env.varsPath ≠ "" then dupdate [] env.varsContent else []
    if env.fromIndex ≠ "" ∧ env.indexExists = false then
      .error ("[error] index.html not found: " ++ env.fromIndex)
    else
      let vm2 :=
        if env.fromIndex ≠ "" then
          let pal := palette_from_index env.indexText
          let base := dupdate vm1 (stylekit_vars_from_palette pal)
          if env.noOptional then base
          else dupdate base (optional_overrides_from_palette pal)
        else vm1
      match parse_set_overrides env.setItems with
      | .error e => .error ("[error] " ++ e)
      | .ok ovr => .ok (dupdate vm2 ovr)

/-- The extra CSS appended by `main` when a palette was extracted. -/
def extraCssOf (pal : Palette) : String :=
  ".translucent-ui [role=\x27dialog\x27] \x7b\n  --sn-stylekit-border-color: var(--sn-stylekit-passive-color-3);\n\x7d\n\na \x7b color: " ++ pal.link ++ "; \x7d\n"

/-- Observable outcome of the generation phase of `main`: the exit code,
the diagnostic lines written to `stderr`, and the contents written to
`theme.css` and `ext.json` (`none` = file not written). -/
structure MainResult where
  exitCode : Nat
  errLines : List String
  cssWrite : Option String
  extWrite : Option (List (String × JVal))
deriving DecidableEq

/-- Lines 388-473 of `main`, without the optional server phase: on any
input-resolution error print one diagnostic and exit 2 writing nothing;
otherwise write `theme.css` and `ext.json` and exit 0. -/
def mainModel (env : Env) : MainResult :=
  match mergedVarsE env with
  | .error msg => ⟨2, [msg], none, none⟩
  | .ok vars_map =>
    if vars_map = [] then
      ⟨2, ["[error] No variables generated. Use --from-index or --vars."], none, none⟩
    else
      let pal := palette_from_index env.indexText
      let extra_css := if env.fromIndex ≠ "" then extraCssOf pal else ""
      let dock_icon :=
        if env.fromIndex ≠ "" then
          some [("type", "circle"),
                ("background_color", pal.background),
                ("foreground_color", pal.accent),
                ("border_color", pal.info)]
        else none
      let meta : ThemeMeta :=
        { identifier := env.identifier
          name := env.name
          version := env.version
          host := env.host
          port := env.port
          description := env.description
          is_dark := !env.light
          cdn_base := env.cdn
          marketing_url := env.marketingUrl
          dock_icon := dock_icon }
      ⟨0, [], some (build_theme_css vars_map extra_css), some (build_ext_json meta)⟩

/-- The merged variable mapping of a run (empty on an error run). -/
def mergedOf (env : Env) : List (String × String) :=
  match mergedVarsE env with
  | .ok m => m
  | .error _ => []

/-- The parsed `--set` override dictionary of a run (empty when parsing
fails). -/
def ovrOf (env : Env) : List (String × String) :=
  match parse_set_overrides env.setItems with
  | .ok m => m
  | .error _ => []

/-- The palette-derived source of a run, as one mapping: the StyleKit
variables updated with the optional overrides (the two dict updates the
code performs for `--from-index`). -/
def apalOf (env : Env) : List (String × String) :=
  dupdate (stylekit_vars_from_palette (palette_from_index env.indexText))
    (optional_overrides_from_palette (palette_from_index env.indexText))

/-- Specification-side characterisation of a successful match of
`font-family:\s*([^;]+);` (case-insensitive) starting at a given suffix of
the text: the 12 characters there lower-case to `font-family:`, some `';'`
follows them, and the character right after them is not `';'` (so at least
one character lies between the colon and that `';'`). -/
def ffMatchP (m : List Char) : Prop :=
  (m.take 12).map Char.toLower = ffKey ∧ ';' ∈ m.drop 12 ∧ (m.drop 12).head? ≠ some ';'

instance (m : List Char) : Decidable (ffMatchP m) := by
  unfold ffMatchP; infer_instance

/-- Environment of the run refuting claim C1: the vars JSON and the
palette-derived variables both define `--background-color`, no `--set`
override mentions it. -/
def envC1 : Env :=
  { varsPath := "vars.json"
    varsExists := true
    varsContent := [("--background-color", "#111111")]
    fromIndex := "index.html"
    indexExists := true
    indexText := ""
    setItems := [] }

/-- Concrete well-formed environment used to witness the merge-order
theorems: all three sources define `--background-color`. -/
def envW : Env :=
  { varsPath := "vars.json"
    varsExists := true
    varsContent := [("--background-color", "#111111"), ("--only-json-color", "#222222")]
    fromIndex := "index.html"
    indexExists := true
    indexText := ""
    setItems := ["--background-color=#333333"] }

/-- Concrete environment used to witness the error-path theorem: the vars
file named by `--vars` does not exist. -/
def envE : Env :=
  { varsPath := "missing.json"
    varsExists := false }

/-- Concrete metadata used to witness the manifest theorem. -/
def metaW : ThemeMeta :=
  { identifier := "lt.sarunas.emacs-org-mode-theme"
    name := "Emacs Org Mode"
    version := "1.0.0"
    host := "localhost"
    port := 8001
    cdn_base := "https://cdn.example/pkg" }

/-! ### Dictionary lemmas -/

theorem dget_dinsert (m : List (String × String)) (k v k' : String) :
    dget (dinsert m k v) k' = if k = k' then some v else dget m k' := by
  induction m with
  | nil => by_cases hk : k = k' <;> simp [dinsert, dget, hk]
  | cons p t ih =>
    by_cases hpk : p.1 = k
    · simp only [dinsert, if_pos hpk, dget]
      by_cases hk : k = k'
      · simp [hk]
      · have hpk' : ¬ p.1 = k' := fun h => hk (hpk.symm.trans h)
        simp [hk, hpk']
    · simp only [dinsert, if_neg hpk, dget]
      by_cases hpk' : p.1 = k'
      · have hk : ¬ k = k' := fun h => hpk (hpk'.trans h.symm)
        simp [hpk', hk]
      · simp [hpk', ih]

theorem dLast_cons (p : String × String) (n : List (String × String)) (k : String) :
    dLast (p :: n) k = oor (dLast n k) (if p.1 = k then some p.2 else none) := by
  have aux : ∀ (t : List (String × String)) (acc : Option String),
      t.foldl (fun acc q => if q.1 = k then some q.2 else acc) acc
        = oor (dLast t k) acc := by
    intro t
    induction t with
    | nil => intro acc; simp [dLast, oor]
    | cons q s ih =>
      intro acc
      show List.foldl _ (if q.1 = k then some q.2 else acc) s = _
      rw [ih]
      have hq : dLast (q :: s) k
          = oor (dLast s k) (if q.1 = k then some q.2 else none) := by
        show List.foldl _ (if q.1 = k then some q.2 else none) s = _
        rw [ih]
      rw [hq]
      cases hd : dLast s k with
      | some v => simp [oor]
      | none =>
        by_cases hqk : q.1 = k <;> simp [oor, hqk]
  exact aux n _

theorem dget_dupdate (n m : List (String × String)) (k : String) :
    dget (dupdate m n) k = oor (dLast n k) (dget m k) := by
  induction n generalizing m with
  | nil => simp [dupdate, dLast, oor]
  | cons p t ih =>
    show dget (dupdate (dinsert m p.1 p.2) t) k = _
    rw [ih, dLast_cons, dget_dinsert]
    cases hd : dLast t k with
    | some v => simp [oor]
    | none => by_cases hpk : p.1 = k <;> simp [oor, hpk]

theorem oor_assoc (a b c : Option String) :
    oor (oor a b) c = oor a (oor b c) := by
  cases a <;> simp [oor]

theorem dLast_eq_none_of_not_mem (n : List (String × String)) (k : String)
    (h : k ∉ n.map Prod.fst) : dLast n k = none := by
  induction n with
  | nil => rfl
  | cons p t ih =>
    rw [dLast_cons]
    have hp : ¬ p.1 = k := fun he => h (by simp [he])
    have ht : k ∉ t.map Prod.fst := fun hm => h (by simp [hm])
    simp [ih ht, hp, oor]

theorem dLast_eq_dget_of_nodupKeys (n : List (String × String)) (k : String)
    (h : nodupKeys n) : dLast n k = dget n k := by
  induction n with
  | nil => rfl
  | cons p t ih =>
    have hcons := List.nodup_cons.mp h
    have ht : nodupKeys t := hcons.2
    rw [dLast_cons, ih ht]
    by_cases hpk : p.1 = k
    · have hk : k ∉ t.map Prod.fst := hpk ▸ hcons.1
      have hnone : dget t k = none := by
        rw [← ih ht]; exact dLast_eq_none_of_not_mem t k hk
      simp [dget, hpk, hnone, oor]
    · cases hd : dget t k with
      | some v => simp [dget, hpk, oor, hd]
      | none => simp [dget, hpk, oor, hd]

theorem dget_isSome_iff_dLast_isSome (n : List (String × String)) (k : String) :
    (dget n k).isSome = (dLast n k).isSome := by
  induction n with
  | nil => rfl
  | cons p t ih =>
    rw [dLast_cons]
    by_cases hpk : p.1 = k
    · cases hd : dLast t k <;> simp [dget, hpk, oor]
    · cases hd : dLast t k with
      | none => simp [dget, hpk, oor, hd, ih]
      | some v => simp [dget, hpk, oor, hd, ih]

theorem keys_dinsert (m : List (String × String)) (k v : String) :
    (dinsert m k v).map Prod.fst =
      if k ∈ m.map Prod.fst then m.map Prod.fst else m.map Prod.fst ++ [k] := by
  induction m with
  | nil => simp [dinsert]
  | cons p t ih =>
    by_cases hpk : p.1 = k
    · simp [dinsert, hpk]
    · have hkp : ¬ k = p.1 := fun h => hpk h.symm
      by_cases hkt : k ∈ t.map Prod.fst
      · simp [dinsert, hpk, ih, hkt, hkp]
      · simp [dinsert, hpk, ih, hkt, hkp]

theorem nodupKeys_dinsert (m : List (String × String)) (k v : String)
    (h : nodupKeys m) : nodupKeys (dinsert m k v) := by
  unfold nodupKeys at *
  rw [keys_dinsert]
  by_cases hk : k ∈ m.map Prod.fst
  · simpa [hk] using h
  · simp only [hk, if_neg, ite_false]
    rw [List.nodup_append]
    exact ⟨h, List.nodup_singleton k, by simp [List.disjoint_singleton, hk]⟩

/-- `oor x none = x`. -/
theorem oor_none_right (a : Option String) : oor a none = a := by
  cases a <;> rfl

/-! ### Lemmas about `parse_set_overrides` -/

theorem psoStep_ok (out : List (String × String)) (item : String) (h : ¬ badItem item) :
    psoStep out item
      = .ok (dinsert out ⟨pyStrip (item.data.takeWhile (· ≠ '='))⟩
          ⟨pyStrip ((item.data.dropWhile (· ≠ '=')).drop 1)⟩) := by
  unfold badItem at h
  push_neg at h
  unfold psoStep
  rw [if_neg (not_not_intro h.1), if_neg h.2]

theorem psoStep_err (out : List (String × String)) (item : String) (h : badItem item) :
    ∃ e, psoStep out item = .error e := by
  unfold psoStep
  by_cases h1 : '=' ∈ item.data
  · rcases h with h | h
    · exact absurd h1 h
    · exact ⟨_, by rw [if_neg (not_not_intro h1), if_pos h]⟩
  · exact ⟨_, by rw [if_pos h1]⟩

theorem psoGo_err_iff (items : List String) :
    ∀ out, isErrE (psoGo out items) = true ↔ ∃ item ∈ items, badItem item := by
  induction items with
  | nil => intro out; simp [psoGo, isErrE]
  | cons item rest ih =>
    intro out
    by_cases hb : badItem item
    · obtain ⟨e, he⟩ := psoStep_err out item hb
      simp only [psoGo, he, isErrE, true_iff]
      exact ⟨item, List.mem_cons_self item rest, hb⟩
    · rw [show psoGo out (item :: rest)
          = psoGo (dinsert out ⟨pyStrip (item.data.takeWhile (· ≠ '='))⟩
              ⟨pyStrip ((item.data.dropWhile (· ≠ '=')).drop 1)⟩) rest by
        simp only [psoGo, psoStep_ok out item hb]]
      rw [ih]
      constructor
      · rintro ⟨it, hit, hbad⟩
        exact ⟨it, List.mem_cons_of_mem _ hit, hbad⟩
      · rintro ⟨it, hit, hbad⟩
        rcases List.mem_cons.mp hit with heq | hmem
        · exact absurd (heq ▸ hbad) hb
        · exact ⟨it, hmem, hbad⟩

theorem psoGo_ok_nodupKeys (items : List String) :
    ∀ out res, nodupKeys out → psoGo out items = .ok res → nodupKeys res := by
  induction items with
  | nil =>
    intro out res h hok
    cases hok
    exact h
  | cons item rest ih =>
    intro out res h hok
    by_cases hb : badItem item
    · obtain ⟨e, he⟩ := psoStep_err out item hb
      simp only [psoGo, he] at hok
      exact absurd hok (by simp)
    · rw [show psoGo out (item :: rest)
          = psoGo (dinsert out ⟨pyStrip (item.data.takeWhile (· ≠ '='))⟩
              ⟨pyStrip ((item.data.dropWhile (· ≠ '=')).drop 1)⟩) rest by
        simp only [psoGo, psoStep_ok out item hb]] at hok
      exact ih _ res (nodupKeys_dinsert _ _ _ h) hok

theorem ovrOf_nodupKeys (env : Env) : nodupKeys (ovrOf env) := by
  unfold ovrOf
  cases hp : parse_set_overrides env.setItems with
  | error e => exact List.nodup_nil
  | ok m =>
    exact psoGo_ok_nodupKeys env.setItems [] m List.nodup_nil hp

/-! ### Lemmas about the merged variable mapping of `main` -/

/-- On a well-formed invocation with both `--vars` and `--from-index` and
the optional overrides enabled, the final mapping's lookup is the layering
(last wins) of: JSON vars, StyleKit variables, optional overrides, `--set`
overrides. -/
theorem dget_mergedOf (env : Env)
    (h1 : env.varsPath ≠ "") (h2 : env.varsExists = true)
    (h3 : env.fromIndex ≠ "") (h4 : env.indexExists = true)
    (h5 : env.noOptional = false)
    (h6 : isErrE (parse_set_overrides env.setItems) = false) (k : String) :
    dget (mergedOf env) k =
      oor (dLast (ovrOf env) k)
        (oor (dLast (optional_overrides_from_palette (palette_from_index env.indexText)) k)
          (oor (dLast (stylekit_vars_from_palette (palette_from_index env.indexText)) k)
            (dLast env.varsContent k))) := by
  unfold mergedOf mergedVarsE
  simp only [h1, h2, h3, h4, h5, ne_eq, not_false_eq_true, Bool.true_eq_false, and_false,
    if_false, if_true, ite_false, ite_true, Bool.false_eq_true]
  cases hp : parse_set_overrides env.setItems with
  | error e => rw [hp] at h6; simp [isErrE] at h6
  | ok ovr =>
    unfold ovrOf
    rw [hp]
    simp only []
    rw [dget_dupdate, dget_dupdate, dget_dupdate, dget_dupdate]
    simp [dget, oor_none_right]

/-- Any of the three pre-merge error conditions makes the merge step of
`main` fail with a diagnostic. -/
theorem mergedVarsE_err (env : Env)
    (h : (env.varsPath ≠ "" ∧ env.varsExists = false) ∨
         (env.fromIndex ≠ "" ∧ env.indexExists = false) ∨
         (∃ item ∈ env.setItems, badItem item)) :
    ∃ e, mergedVarsE env = .error e := by
  unfold mergedVarsE
  by_cases hc1 : env.varsPath ≠ "" ∧ env.varsExists = false
  · exact ⟨_, by rw [if_pos hc1]⟩
  · rw [if_neg hc1]
    by_cases hc2 : env.fromIndex ≠ "" ∧ env.indexExists = false
    · exact ⟨_, by rw [if_pos hc2]⟩
    · rw [if_neg hc2]
      have hc3 : ∃ item ∈ env.setItems, badItem item := by
        rcases h with h | h | h
        · exact absurd h hc1
        · exact absurd h hc2
        · exact h
      have herr : isErrE (parse_set_overrides env.setItems) = true :=
        (psoGo_err_iff env.setItems []).mpr hc3
      cases hp : parse_set_overrides env.setItems with
      | error e =>
        exact ⟨_, rfl⟩
      | ok ovr =>
        rw [hp] at herr
        simp [isErrE] at herr

/-! ### Sorting lemmas for `build_theme_css` -/

theorem list_eq_of_perm_of_map_eq {α β : Type} (f : α → β) :
    ∀ (l₁ l₂ : List α), l₁.Perm l₂ → l₁.map f = l₂.map f → (l₁.map f).Nodup → l₁ = l₂ := by
  intro l₁
  induction l₁ with
  | nil =>
    intro l₂ hp _ _
    exact hp.symm.eq_nil.symm
  | cons a t₁ ih =>
    intro l₂ hp hm hnd
    cases l₂ with
    | nil => exact absurd hp.eq_nil (by simp)
    | cons b t₂ =>
      simp only [List.map_cons, List.cons.injEq] at hm
      rw [List.map_cons] at hnd
      have hnd' := List.nodup_cons.mp hnd
      by_cases hab : a = b
      · subst hab
        rw [ih t₂ hp.cons_inv hm.2 hnd'.2]
      · have ha : a ∈ b :: t₂ := hp.mem_iff.mp (List.mem_cons_self a t₁)
        have ha2 : a ∈ t₂ := by
          rcases List.mem_cons.mp ha with h | h
          · exact absurd h hab
          · exact h
        have hfa : f a ∈ t₂.map f := List.mem_map_of_mem f ha2
        exact absurd (hm.2 ▸ hfa) hnd'.1

instance : IsAntisymm (List Char) (· ≤ ·) :=
  ⟨fun _ _ h1 h2 => le_antisymm h1 h2⟩

/-- The emission order of `build_theme_css` does not depend on the dict's
insertion order, provided the keys are case-insensitively unique. -/
theorem cssSorted_eq_of_perm (l₁ l₂ : List (String × String))
    (hp : l₁.Perm l₂)
    (hnd : List.Pairwise (fun p q : String × String => lowerStr p.1 ≠ lowerStr q.1) l₁) :
    cssSorted l₁ = cssSorted l₂ := by
  have hperm : (cssSorted l₁).Perm (cssSorted l₂) :=
    ((List.perm_insertionSort cssLe l₁).trans hp).trans (List.perm_insertionSort cssLe l₂).symm
  have hnd1 : List.Pairwise (fun p q : String × String => lowerStr p.1 ≠ lowerStr q.1)
      (cssSorted l₁) :=
    ((List.perm_insertionSort cssLe l₁).pairwise_iff (fun h he => h he.symm)).mpr hnd
  have hndmap : ((cssSorted l₁).map (fun p => lowerStr p.1)).Nodup :=
    List.pairwise_map.mpr hnd1
  have hsort1 : List.Sorted cssLe (cssSorted l₁) := List.sorted_insertionSort cssLe l₁
  have hsort2 : List.Sorted cssLe (cssSorted l₂) := List.sorted_insertionSort cssLe l₂
  have hmapsort1 : List.Sorted (· ≤ ·) ((cssSorted l₁).map (fun p => lowerStr p.1)) :=
    List.pairwise_map.mpr hsort1
  have hmapsort2 : List.Sorted (· ≤ ·) ((cssSorted l₂).map (fun p => lowerStr p.1)) :=
    List.pairwise_map.mpr hsort2
  have hmapeq : (cssSorted l₁).map (fun p => lowerStr p.1)
      = (cssSorted l₂).map (fun p => lowerStr p.1) :=
    List.eq_of_perm_of_sorted (hperm.map _) hmapsort1 hmapsort2
  exact list_eq_of_perm_of_map_eq _ (cssSorted l₁) (cssSorted l₂) hperm hmapeq hndmap

/-! ### Lemmas about the font-family search -/

theorem takeUntilSemi_of_mem (m : List Char) (h : ';' ∈ m) :
    takeUntilSemi m = some (m.takeWhile (· ≠ ';')) := by
  induction m with
  | nil => exact absurd h (List.not_mem_nil ';')
  | cons c t ih =>
    by_cases hc : c = ';'
    · subst hc
      simp [takeUntilSemi, List.takeWhile_cons]
    · have ht : ';' ∈ t := by
        rcases List.mem_cons.mp h with h1 | h1
        · exact absurd h1.symm hc
        · exact h1
      simp [takeUntilSemi, hc, ih ht, List.takeWhile_cons]

theorem takeUntilSemi_of_not_mem (m : List Char) (h : ';' ∉ m) :
    takeUntilSemi m = none := by
  induction m with
  | nil => rfl
  | cons c t ih =>
    have hc : ¬ c = ';' := fun he => h (by simp [he])
    have ht : ';' ∉ t := fun hm => h (by simp [hm])
    simp [takeUntilSemi, hc, ih ht]

theorem ffSearch_pos (l : List Char) (h : ffMatchP l) :
    ffSearch l = some ((l.drop 12).takeWhile (· ≠ ';')) := by
  obtain ⟨h1, h2, h3⟩ := h
  cases l with
  | nil => simp [ffKey] at h1
  | cons c rest =>
    unfold ffSearch
    rw [if_pos h1, takeUntilSemi_of_mem _ h2]
    have hne : ¬ ((c :: rest).drop 12).takeWhile (· ≠ ';') = [] := by
      cases hd : (c :: rest).drop 12 with
      | nil => rw [hd] at h2; exact absurd h2 (List.not_mem_nil ';')
      | cons d t =>
        rw [hd] at h3
        have hdne : ¬ d = ';' := fun he => h3 (by simp [he])
        simp [List.takeWhile_cons, hdne]
    simp only [List.isEmpty_iff]
    rw [if_neg hne]

theorem ffSearch_step (c : Char) (rest : List Char) (h : ¬ ffMatchP (c :: rest)) :
    ffSearch (c :: rest) = ffSearch rest := by
  conv_lhs => rw [ffSearch]
  by_cases h1 : (((c :: rest).take 12).map Char.toLower) = ffKey
  · rw [if_pos h1]
    by_cases h2 : ';' ∈ (c :: rest).drop 12
    · rw [takeUntilSemi_of_mem _ h2]
      have h3 : ((c :: rest).drop 12).head? = some ';' := by
        by_contra hc
        exact h ⟨h1, h2, hc⟩
      have hempty : ((c :: rest).drop 12).takeWhile (· ≠ ';') = [] := by
        cases hd : (c :: rest).drop 12 with
        | nil => rfl
        | cons d t =>
          rw [hd] at h3
          have hds : d = ';' := by simpa using h3
          simp [List.takeWhile_cons, hds]
      rw [hempty]
      rfl
    · rw [takeUntilSemi_of_not_mem _ h2]
  · rw [if_neg h1]

theorem ffSearch_eq_none (l : List Char) (h : ∀ i, ¬ ffMatchP (l.drop i)) :
    ffSearch l = none := by
  induction l with
  | nil => rfl
  | cons c rest ih =>
    rw [ffSearch_step c rest (by simpa using h 0)]
    exact ih fun i => by simpa using h (i + 1)

theorem ffSearch_eq_some (i : Nat) :
    ∀ (l : List Char), ffMatchP (l.drop i) → (∀ j, j < i → ¬ ffMatchP (l.drop j)) →
      ffSearch l = some (((l.drop i).drop 12).takeWhile (· ≠ ';')) := by
  induction i with
  | zero =>
    intro l h _
    simpa using ffSearch_pos l (by simpa using h)
  | succ i' ih =>
    intro l h hmin
    cases l with
    | nil =>
      rw [List.drop_nil] at h
      exact absurd h (by decide)
    | cons c rest =>
      rw [ffSearch_step c rest (by simpa using hmin 0 (Nat.succ_pos i'))]
      exact ih rest (by simpa using h)
        (fun j hj => by simpa using hmin (j + 1) (Nat.succ_lt_succ hj))

theorem pick_same (colors : List (List Char)) (w : String) : pick colors w w = w := by
  unfold pick
  split <;> rfl

/-! ### Claim theorems -/

/-- C10: for every source text, every color slot of the built palette equals
the same fixed constant regardless of the source's contents, because each
slot's preferred candidate and its default fallback are the identical
string; only the font-family slot of the palette can vary with the source
text. -/
theorem C10_color_slots_constant (h1 h2 : String) (s : ColorSlot) :
    slotPref s = slotDefault s ∧
    slotValue (palette_from_index h1) s = slotDefault s ∧
    slotValue (palette_from_index h1) s = slotValue (palette_from_index h2) s := by
  cases s <;>
    simp [slotValue, slotPref, slotDefault, palette_from_index, pick_same]

/-- C8: for every source text and palette color slot, the slot resolves to
its preferred hex value if that value occurs case-insensitively among the
source's 6-digit hex substrings, and otherwise to its default; with zero
hex colors every slot resolves to its default, and the resolved color is
always one of the two hard-coded constants. -/
theorem C8_slot_resolution (html : String) (s : ColorSlot) :
    (extract_hex_colors_from_index html = [] →
      slotValue (palette_from_index html) s = slotDefault s) ∧
    (lowerStr (slotPref s) ∈ (extract_hex_colors_from_index html).map lowerStr →
      slotValue (palette_from_index html) s = slotPref s) ∧
    (lowerStr (slotPref s) ∉ (extract_hex_colors_from_index html).map lowerStr →
      slotValue (palette_from_index html) s = slotDefault s) ∧
    (slotValue (palette_from_index html) s = slotPref s ∨
      slotValue (palette_from_index html) s = slotDefault s) := by
  refine ⟨fun _ => ?_, fun _ => ?_, fun _ => ?_, Or.inr ?_⟩ <;>
    cases s <;>
    simp [slotValue, slotPref, slotDefault, palette_from_index, pick_same]

theorem C8_slot_resolution_witness :
    slotValue (palette_from_index "") ColorSlot.background
      = slotDefault ColorSlot.background :=
  (C8_slot_resolution "" ColorSlot.background).1 (by decide)

/-- C4 counterexample: the color extraction deduplicates case-sensitively,
not case-insensitively — on a source containing both `#AAAAAA` and
`#aaaaaa` the result keeps two elements that are equal when compared
case-insensitively, refuting the claim. -/
theorem C4_colors_cex :
    ¬ List.Pairwise (fun a b : String => lowerStr a ≠ lowerStr b)
      (extract_hex_colors_from_index "#AAAAAA #aaaaaa") := by
  decide

/-- C4 amended: for every source text, the color extraction returns the
substrings matching `#` followed by exactly 6 hexadecimal digits,
deduplicated case-SENSITIVELY (no two elements are equal as strings, but
two elements may coincide case-insensitively) and sorted by their
lower-casings. -/
theorem C4_colors_extraction (html : String) :
    (extract_hex_colors_from_index html).Nodup ∧
    List.Sorted lowerLe (extract_hex_colors_from_index html) ∧
    (∀ s : String, s ∈ extract_hex_colors_from_index html ↔ s ∈ hexMatches html.data) := by
  unfold extract_hex_colors_from_index
  have hperm := List.perm_insertionSort lowerLe (hexMatches html.data).dedup
  refine ⟨hperm.nodup_iff.mpr (List.nodup_dedup _),
    List.sorted_insertionSort lowerLe _, fun s => ?_⟩
  rw [hperm.mem_iff, List.mem_dedup]

/-- C7: manifest rendering — with a hosting base URL the primary URL is the
base (trailing `/` stripped) plus the stylesheet filename and a secondary
`latest_url` pointing at the manifest is present; without one the primary
URL is `http://host:port/stylesheet` and no secondary URL exists; the
marketing URL and icon descriptor appear exactly when provided. -/
theorem C7_manifest (meta : ThemeMeta) :
    (meta.cdn_base ≠ "" →
      jget (build_ext_json meta) "url"
          = some (.str (rstripSlash meta.cdn_base ++ "/" ++ meta.css_filename)) ∧
      jget (build_ext_json meta) "latest_url"
          = some (.str (rstripSlash meta.cdn_base ++ "/" ++ meta.ext_filename))) ∧
    (meta.cdn_base = "" →
      jget (build_ext_json meta) "url"
          = some (.str ("http://" ++ meta.host ++ ":" ++ Nat.repr meta.port
              ++ "/" ++ meta.css_filename)) ∧
      jget (build_ext_json meta) "latest_url" = none) ∧
    (meta.marketing_url ≠ "" →
      jget (build_ext_json meta) "marketing_url" = some (.str meta.marketing_url)) ∧
    (meta.marketing_url = "" → jget (build_ext_json meta) "marketing_url" = none) ∧
    (∀ d, meta.dock_icon = some d → d ≠ [] →
      jget (build_ext_json meta) "dock_icon" = some (.obj d)) ∧
    (meta.dock_icon = none → jget (build_ext_json meta) "dock_icon" = none) ∧
    (meta.dock_icon = some [] → jget (build_ext_json meta) "dock_icon" = none) := by
  unfold build_ext_json
  by_cases hc : meta.cdn_base = "" <;>
    by_cases hm : meta.marketing_url = "" <;>
    refine ⟨fun h => ?_, fun h => ?_, fun h => ?_, fun h => ?_, fun d hdi hdne => ?_,
      fun h => ?_, fun h => ?_⟩ <;>
    first
      | exact absurd hc h
      | exact absurd h hc
      | exact absurd hm h
      | exact absurd h hm
      | (simp [hc, hm, h, jget]; done)
      | (simp [hc, hm, hdi, hdne, jget]; done)
      | (cases hdi2 : meta.dock_icon with
          | none => simp [hc, hm, h, hdi2, jget]
          | some d2 => by_cases hd2 : d2 = [] <;> simp [hc, hm, h, hdi2, hd2, jget])

theorem C7_manifest_witness :
    jget (build_ext_json metaW) "url" = some (.str "https://cdn.example/pkg/theme.css") ∧
    jget (build_ext_json metaW) "latest_url" = some (.str "https://cdn.example/pkg/ext.json") := by
  have h := (C7_manifest metaW).1 (by decide)
  exact ⟨h.1.trans (by decide), h.2.trans (by decide)⟩

theorem takeWhile_until_eqchar (m : List Char) :
    ∀ l : List Char, '=' ∉ l → (l ++ '=' :: m).takeWhile (· ≠ '=') = l := by
  intro l
  induction l with
  | nil => intro _; simp [List.takeWhile_cons]
  | cons c t ih =>
    intro h
    have hc : ¬ c = '=' := fun he => h (by simp [he])
    have ht : '=' ∉ t := fun hm => h (by simp [hm])
    simp only [List.cons_append, List.takeWhile_cons]
    rw [if_pos (by simp [hc]), ih ht]

theorem dropWhile_until_eqchar (m : List Char) :
    ∀ l : List Char, '=' ∉ l → (l ++ '=' :: m).dropWhile (· ≠ '=') = '=' :: m := by
  intro l
  induction l with
  | nil => intro _; simp [List.dropWhile_cons]
  | cons c t ih =>
    intro h
    have hc : ¬ c = '=' := fun he => h (by simp [he])
    have ht : '=' ∉ t := fun hm => h (by simp [hm])
    simp only [List.cons_append, List.dropWhile_cons]
    rw [if_pos (by simp [hc]), ih ht]

/-- C5 counterexample: `parse_set_overrides` does not map the key to the
raw value after the first `=` — it strips the value too.  On the item
`"k= v"` the stored value is `"v"`, not `" v"`, refuting the claim's
description of the mapped value. -/
theorem C5_overrides_cex :
    parse_set_overrides ["k= v"] = .ok [("k", "v")] ∧
    ¬ parse_set_overrides ["k= v"] = .ok [("k", " v")] := by
  refine ⟨rfl, fun h => ?_⟩
  have h2 : ([("k", "v")] : List (String × String)) = [("k", " v")] := Except.ok.inj h
  exact absurd h2 (by decide)

/-- C5 amended: `parse_set_overrides` splits every item at the first `=`
and maps the trimmed key to the TRIMMED value (which may be empty); it
raises a parse error exactly when some item contains no `=` or its key is
empty after trimming; `["--x-color=#112233"]` yields
`{"--x-color": "#112233"}`, `["novalue"]` raises, and `["=v"]` raises. -/
theorem C5_parse_overrides (items : List String) :
    (isErrE (parse_set_overrides items) = true ↔ ∃ item ∈ items, badItem item) ∧
    (∀ k v : String, '=' ∉ k.data → pyStrip k.data ≠ [] →
      parse_set_overrides [k ++ "=" ++ v]
        = .ok [(⟨pyStrip k.data⟩, ⟨pyStrip v.data⟩)]) ∧
    parse_set_overrides ["--x-color=#112233"] = .ok [("--x-color", "#112233")] ∧
    isErrE (parse_set_overrides ["novalue"]) = true ∧
    isErrE (parse_set_overrides ["=v"]) = true := by
  refine ⟨psoGo_err_iff items [], fun k v hk hne => ?_, rfl, rfl, rfl⟩
  have hdata : (k ++ "=" ++ v).data = k.data ++ '=' :: v.data := by
    show (k.data ++ ['=']) ++ v.data = k.data ++ '=' :: v.data
    rw [List.append_assoc]
    rfl
  have hnotbad : ¬ badItem (k ++ "=" ++ v) := by
    intro hbad
    rcases hbad with hbad | hbad
    · rw [hdata] at hbad
      exact hbad (List.mem_append_right _ (List.mem_cons_self '=' v.data))
    · rw [hdata, takeWhile_until_eqchar v.data k.data hk] at hbad
      exact hne hbad
  show psoGo [] [k ++ "=" ++ v] = _
  rw [show psoGo [] [k ++ "=" ++ v]
      = psoGo (dinsert [] ⟨pyStrip ((k ++ "=" ++ v).data.takeWhile (· ≠ '='))⟩
          ⟨pyStrip (((k ++ "=" ++ v).data.dropWhile (· ≠ '=')).drop 1)⟩) [] by
    simp only [psoGo, psoStep_ok [] (k ++ "=" ++ v) hnotbad]]
  rw [hdata, takeWhile_until_eqchar v.data k.data hk, dropWhile_until_eqchar v.data k.data hk]
  rfl

theorem C5_parse_overrides_witness :
    parse_set_overrides ["a= b "] = .ok [("a", "b")] :=
  (C5_parse_overrides []).2.1 "a" " b " (by decide) (by decide)

/-- C3: whenever the vars file or index file is missing, a `--set` item is
malformed, or the final mapping is empty, the run prints one diagnostic
line to the error stream, exits with code 2, and writes neither the
stylesheet nor the manifest. -/
theorem C3_error_paths (env : Env)
    (h : (env.varsPath ≠ "" ∧ env.varsExists = false) ∨
         (env.fromIndex ≠ "" ∧ env.indexExists = false) ∨
         (∃ item ∈ env.setItems, badItem item) ∨
         mergedVarsE env = .ok []) :
    (mainModel env).exitCode = 2 ∧ (mainModel env).errLines.length = 1 ∧
    (mainModel env).cssWrite = none ∧ (mainModel env).extWrite = none := by
  unfold mainModel
  rcases h with h | h | h | h
  · obtain ⟨e, he⟩ := mergedVarsE_err env (Or.inl h)
    rw [he]
    exact ⟨rfl, rfl, rfl, rfl⟩
  · obtain ⟨e, he⟩ := mergedVarsE_err env (Or.inr (Or.inl h))
    rw [he]
    exact ⟨rfl, rfl, rfl, rfl⟩
  · obtain ⟨e, he⟩ := mergedVarsE_err env (Or.inr (Or.inr h))
    rw [he]
    exact ⟨rfl, rfl, rfl, rfl⟩
  · rw [h]
    exact ⟨rfl, rfl, rfl, rfl⟩

theorem C3_error_paths_witness :
    (mainModel envE).exitCode = 2 ∧ (mainModel envE).errLines.length = 1 ∧
    (mainModel envE).cssWrite = none ∧ (mainModel envE).extWrite = none :=
  C3_error_paths envE (Or.inl ⟨by decide, rfl⟩)

/-- C1 counterexample: on a run where the JSON vars file and the
palette-derived defaults both define `--background-color` and no `--set`
override mentions it, the final mapping holds the palette-derived value
`#0f1011`, not the JSON value `#111111` — the externally supplied mapping
does NOT win, refuting the claimed precedence. -/
theorem C1_precedence_cex :
    dget envC1.varsContent "--background-color" = some "#111111" ∧
    (dget (apalOf envC1) "--background-color").isSome = true ∧
    dget (ovrOf envC1) "--background-color" = none ∧
    dget (mergedOf envC1) "--background-color" = some "#0f1011" ∧
    ¬ dget (mergedOf envC1) "--background-color" = some "#111111" := by
  refine ⟨rfl, by decide, rfl, by decide, by decide⟩

/-- C1 corrected: for every key defined both by the externally supplied
JSON mapping and by the palette-derived defaults but not by an explicit
`--set` override, the PALETTE-DERIVED value wins: the merge precedence is
explicit per-key overrides > palette-derived defaults > externally
supplied mapping. -/
theorem C1_precedence (env : Env)
    (h1 : env.varsPath ≠ "") (h2 : env.varsExists = true)
    (h3 : env.fromIndex ≠ "") (h4 : env.indexExists = true)
    (h5 : env.noOptional = false)
    (h6 : isErrE (parse_set_overrides env.setItems) = false)
    (k : String)
    (hjson : (dget env.varsContent k).isSome = true)
    (hpal : (dget (apalOf env) k).isSome = true)
    (hovr : dget (ovrOf env) k = none) :
    dget (mergedOf env) k = dget (apalOf env) k := by
  have hovrl : dLast (ovrOf env) k = none := by
    rw [dLast_eq_dget_of_nodupKeys _ _ (ovrOf_nodupKeys env)]
    exact hovr
  have happ : dget (apalOf env) k
      = oor (dLast (optional_overrides_from_palette (palette_from_index env.indexText)) k)
          (dget (stylekit_vars_from_palette (palette_from_index env.indexText)) k) := by
    unfold apalOf
    exact dget_dupdate _ _ k
  have hSnd : nodupKeys (stylekit_vars_from_palette (palette_from_index env.indexText)) :=
    of_decide_eq_true rfl
  have hSl : dLast (stylekit_vars_from_palette (palette_from_index env.indexText)) k
      = dget (stylekit_vars_from_palette (palette_from_index env.indexText)) k :=
    dLast_eq_dget_of_nodupKeys _ _ hSnd
  rw [dget_mergedOf env h1 h2 h3 h4 h5 h6 k, hovrl, hSl]
  cases hO : dLast (optional_overrides_from_palette (palette_from_index env.indexText)) k with
  | some v => rw [happ, hO]; rfl
  | none =>
    cases hS : dget (stylekit_vars_from_palette (palette_from_index env.indexText)) k with
    | some v => rw [happ, hO, hS]; rfl
    | none =>
      rw [happ, hO, hS] at hpal
      simp [oor] at hpal

theorem C1_precedence_witness :
    dget (mergedOf envC1) "--background-color" = dget (apalOf envC1) "--background-color" :=
  C1_precedence envC1 (by decide) rfl (by decide) rfl rfl rfl
    "--background-color" (by decide) (by decide) rfl

/-- C2: the merge applies the sources in the fixed order (JSON mapping) →
(palette-derived StyleKit variables plus optional variables) → (`--set`
overrides); for every key a later source's value replaces an earlier one's,
a key present in any source survives into the result, and when a `--set`
override defines a key it gives the final value. -/
theorem C2_merge_order (env : Env)
    (h1 : env.varsPath ≠ "") (h2 : env.varsExists = true)
    (h3 : env.fromIndex ≠ "") (h4 : env.indexExists = true)
    (h5 : env.noOptional = false)
    (h6 : isErrE (parse_set_overrides env.setItems) = false)
    (hB : nodupKeys env.varsContent) (k : String) :
    ((dget (ovrOf env) k).isSome = true → dget (mergedOf env) k = dget (ovrOf env) k) ∧
    (dget (ovrOf env) k = none → (dget (apalOf env) k).isSome = true →
      dget (mergedOf env) k = dget (apalOf env) k) ∧
    (dget (ovrOf env) k = none → dget (apalOf env) k = none →
      dget (mergedOf env) k = dget env.varsContent k) ∧
    ((dget (mergedOf env) k).isSome = true ↔
      (dget env.varsContent k).isSome = true ∨ (dget (apalOf env) k).isSome = true ∨
        (dget (ovrOf env) k).isSome = true) := by
  have hovrl : dLast (ovrOf env) k = dget (ovrOf env) k :=
    dLast_eq_dget_of_nodupKeys _ _ (ovrOf_nodupKeys env)
  have hBl : dLast env.varsContent k = dget env.varsContent k :=
    dLast_eq_dget_of_nodupKeys _ _ hB
  have hSnd : nodupKeys (stylekit_vars_from_palette (palette_from_index env.indexText)) :=
    of_decide_eq_true rfl
  have hSl : dLast (stylekit_vars_from_palette (palette_from_index env.indexText)) k
      = dget (stylekit_vars_from_palette (palette_from_index env.indexText)) k :=
    dLast_eq_dget_of_nodupKeys _ _ hSnd
  have happ : dget (apalOf env) k
      = oor (dLast (optional_overrides_from_palette (palette_from_index env.indexText)) k)
          (dget (stylekit_vars_from_palette (palette_from_index env.indexText)) k) := by
    unfold apalOf
    exact dget_dupdate _ _ k
  have hmain : dget (mergedOf env) k
      = oor (dget (ovrOf env) k) (oor (dget (apalOf env) k) (dget env.varsContent k)) := by
    rw [dget_mergedOf env h1 h2 h3 h4 h5 h6 k, hovrl, hBl, hSl,
      ← oor_assoc _ _ (dget env.varsContent k), ← happ]
  rw [hmain]
  refine ⟨fun ho => ?_, fun ho hp => ?_, fun ho hp => ?_, ?_⟩
  · cases hov : dget (ovrOf env) k with
    | some v => rfl
    | none => rw [hov] at ho; simp at ho
  · rw [ho]
    cases hp2 : dget (apalOf env) k with
    | some v => rfl
    | none => rw [hp2] at hp; simp at hp
  · rw [ho, hp]
    rfl
  · cases hov : dget (ovrOf env) k <;>
      cases hp2 : dget (apalOf env) k <;>
      cases hb2 : dget env.varsContent k <;>
      simp [oor]

theorem C2_merge_order_witness :
    dget (mergedOf envW) "--background-color" = dget (ovrOf envW) "--background-color" :=
  (C2_merge_order envW (by decide) rfl (by decide) rfl rfl rfl
    (by decide) "--background-color").1 (by decide)

/-- C6: stylesheet rendering emits one declaration per entry, sorted by key
case-insensitively, and is order-independent on input when keys are
case-insensitively unique: rendering permutations of the same mapping
yields byte-identical output (idempotence is immediate since rendering is a
pure function of the mapping). -/
theorem C6_render_stylesheet (l₁ l₂ : List (String × String)) (extra : String)
    (hperm : l₁.Perm l₂)
    (hnd : List.Pairwise (fun p q : String × String => lowerStr p.1 ≠ lowerStr q.1) l₁) :
    build_theme_css l₁ extra = build_theme_css l₂ extra ∧
    (cssSorted l₁).length = l₁.length ∧
    List.Sorted cssLe (cssSorted l₁) ∧
    (∀ p, p ∈ l₁ → p ∈ cssSorted l₁) := by
  have hs := cssSorted_eq_of_perm l₁ l₂ hperm hnd
  refine ⟨?_, (List.perm_insertionSort cssLe l₁).length_eq,
    List.sorted_insertionSort cssLe l₁,
    fun p hp => (List.perm_insertionSort cssLe l₁).mem_iff.mpr hp⟩
  unfold build_theme_css
  rw [hs]

theorem C6_render_stylesheet_witness :
    build_theme_css [("--B", "x"), ("--a", "y")] ""
      = build_theme_css [("--a", "y"), ("--B", "x")] "" :=
  (C6_render_stylesheet [("--B", "x"), ("--a", "y")] [("--a", "y"), ("--B", "x")] ""
    (by decide) (by decide)).1

/-- C9: if the source text has no case-insensitive `font-family: <value>;`
occurrence the extraction returns the fixed fallback stack (and never
fails); otherwise it returns the first occurrence's value, trimmed of
surrounding whitespace. -/
theorem C9_font_extraction (html : String) :
    ((∀ i, ¬ ffMatchP (html.data.drop i)) →
      extract_font_family_from_index html = fallbackFont) ∧
    (∀ i, ffMatchP (html.data.drop i) → (∀ j, j < i → ¬ ffMatchP (html.data.drop j)) →
      extract_font_family_from_index html
        = ⟨pyStrip (((html.data.drop i).drop 12).takeWhile (· ≠ ';'))⟩) := by
  constructor
  · intro h
    unfold extract_font_family_from_index
    rw [ffSearch_eq_none html.data h]
  · intro i h hmin
    unfold extract_font_family_from_index
    rw [ffSearch_eq_some i html.data h hmin]

theorem C9_font_extraction_witness :
    extract_font_family_from_index "x; font-family: Mono ;" = "Mono" :=
  ((C9_font_extraction "x; font-family: Mono ;").2 3 (by decide)
    (fun j hj => by interval_cases j <;> decide)).trans (by decide)
